import Mathlib

/-!
Shallow embedding of the Wizdom subtitle provider
(src/medusa/subtitle_providers/wizdom.py) and proofs about its behaviour.

External collaborators (the subliminal framework, guessit, the HTTP layer,
zipfile) are modelled either as parameters (the guesser, the remote APIs)
or, where the behaviour is pinned down by the specification, as concrete
functions marked "Modelled from the spec".

Python truthiness conventions used throughout the embedding:
an optional string is truthy when it is present and non-empty; an optional
natural is truthy when it is present and non-zero; this mirrors the
`if x and ...` guards of the source.
-/

namespace Wizdom

/-- Python truthiness of an optional string: present and non-empty. -/
def truthyStr : Option String → Bool
  | none => false
  | some s => s != ""

/-- Python truthiness of an optional natural number: present and non-zero. -/
def truthyNat : Option Nat → Bool
  | none => false
  | some n => n != 0

/-- Python `a or b` on optional strings (with falsy = absent or empty). -/
def pyOrStr (a b : Option String) : Option String :=
  if truthyStr a then a else b

/-- Modelled from the spec: `sanitize` from the subtitle framework utilities
(not part of this repository) lowercases its input and strips punctuation and
separators, so that comparison is case- and punctuation-insensitive. We map
every non-alphanumeric character to a space after lowercasing. -/
def sanitize (s : String) : String :=
  String.mk ((s.toList.map Char.toLower).map (fun c => if c.isAlphanum then c else ' '))

/-- The WizdomSubtitle data holder (wizdom.py, `WizdomSubtitle.__init__`). -/
structure WizdomSubtitle where
  language : String
  hearing_impaired : Bool
  page_link : String
  series : String
  season : Option Nat
  episode : Option Nat
  title : String
  imdb_id : String
  subtitle_id : Nat
  downloaded : Nat
  release : String
deriving DecidableEq, Repr

/-- The fields of an `Episode` video object that wizdom.py reads. -/
structure EpisodeVideo where
  series : String
  season : Nat
  episode : Nat
  series_imdb_id : Option String
  title : Option String
  year : Option Nat
  name : Option String
  imdb_id : Option String
deriving DecidableEq, Repr

/-- The fields of a `Movie` video object that wizdom.py reads. -/
structure MovieVideo where
  title : String
  year : Option Nat
  name : Option String
  imdb_id : Option String
deriving DecidableEq, Repr

/-- A target video is either an episode or a movie (isinstance dispatch). -/
inductive Video where
  | episode (e : EpisodeVideo)
  | movie (m : MovieVideo)
deriving DecidableEq, Repr

/-- The title field the final `if video.title` check of get_matches reads. -/
def Video.titleField : Video → Option String
  | .episode e => e.title
  | .movie m => some m.title

/-- Embedding of `WizdomSubtitle.get_matches`. The external guesser pipeline
(`guess_matches(video, guessit(self.release, dict(type=t)))`) is opaque to this
module and is passed in as the parameter `guess`, applied to the video, the
type string given to guessit and the release label, yielding the set of tags
it contributes. -/
def get_matches (guess : Video → String → String → Finset String)
    (s : WizdomSubtitle) (video : Video) : Finset String :=
  let base : Finset String :=
    match video with
    | .episode e =>
        (if e.series != "" && (sanitize s.series == sanitize e.series) then
          ({"series"} : Finset String) else ∅)
        ∪ (if e.season != 0 && (s.season == some e.season) then
          ({"season"} : Finset String) else ∅)
        ∪ (if e.episode != 0 && (s.episode == some e.episode) then
          ({"episode"} : Finset String) else ∅)
        ∪ (if truthyStr e.series_imdb_id && (some s.imdb_id == e.series_imdb_id) then
          ({"series_imdb_id"} : Finset String) else ∅)
        ∪ guess video "episode" s.release
    | .movie _ => guess video "movie" s.release
  base ∪
    (match video.titleField with
     | some t =>
        if t != "" && (sanitize s.title == sanitize t) then
          ({"title"} : Finset String) else ∅
     | none => ∅)

/-- One element of the TMDB search `results` array: the `id` field, absent
when the JSON object has no such key. -/
structure TmdbResult where
  id : Option Nat
deriving DecidableEq, Repr

/-- The TMDB API as an oracle: `search category query year` is the `results`
array of the search response (`none` when the key is absent), and
`detail_imdb category tmdbId` is the `imdb_id` field of the follow-up detail
request (`none` when absent). The follow-up URL difference between movies and
series (plain record vs the external-ids sub-resource) is captured by the
category argument. -/
structure TmdbApi where
  search : String → String → Option Nat → Option (List TmdbResult)
  detail_imdb : String → Nat → Option String

/-- Remove apostrophes from a title (wizdom.py line 113). -/
def removeApostrophes (s : String) : String :=
  String.mk (s.toList.filter (fun c => c != Char.ofNat 39))

/-- The search category string picked by `_search_imdb_id`. -/
def tmdb_category (is_movie : Bool) : String :=
  if is_movie then "movie" else "tv"

/-- The year actually sent in the search request: dropped when falsy,
mirroring the conditional `&year=` URL fragment. -/
def tmdb_year (year : Option Nat) : Option Nat :=
  if truthyNat year then year else none

/-- Embedding of `WizdomProvider._search_imdb_id`. Returns the resolved
identifier together with a flag recording whether the follow-up detail
request was issued. -/
def _search_imdb_id (api : TmdbApi) (title : String) (year : Option Nat)
    (is_movie : Bool) : Option String × Bool :=
  let category := tmdb_category is_movie
  let cleaned := removeApostrophes title
  let yr := tmdb_year year
  match api.search category cleaned yr with
  | none => (none, false)
  | some [] => (none, false)
  | some (first :: _) =>
    match first.id with
    | none => (none, false)
    | some tmdb_id =>
      if tmdb_id = 0 then (none, false)
      else
        let s := (api.detail_imdb category tmdb_id).getD ""
        (if s = "" then none else some s, true)

/-- One element of the catalog search response array: the `id` and
`versioname` fields that wizdom.py reads. -/
structure RawRecord where
  id : Nat
  versioname : String
deriving DecidableEq, Repr

/-- A catalog search HTTP response: whether `raise_for_status` passes, and
the JSON body (`none` models a body that fails JSON decoding). -/
structure HttpJson where
  status_ok : Bool
  body : Option (List RawRecord)
deriving DecidableEq, Repr

/-- The catalog search endpoint as an oracle keyed by the request parameters
(imdb id, season, episode); `none` models the request itself raising. -/
abbrev CatalogFn := String → Option Nat → Option Nat → Option HttpJson

/-- Embedding of `WizdomProvider._get_subtitles_for_episode`. The second
component records whether the warning branch ran: any exception during the
request (including a non-success status raised by `raise_for_status`) or a
JSON decode failure is caught, logged, and the initial empty list returned. -/
def _get_subtitles_for_episode (catalog : CatalogFn) (imdb_id : String)
    (season episode : Option Nat) : List RawRecord × Bool :=
  match catalog imdb_id season episode with
  | none => ([], true)
  | some resp =>
    if !resp.status_ok then ([], true)
    else
      match resp.body with
      | none => ([], true)
      | some rs => (rs, false)

/-- Python dict assignment `d[k] = v` on an insertion-ordered association
list: an existing key keeps its position and gets the new value, a new key is
appended. -/
def dinsert {α : Type} (k : Nat) (v : α) : List (Nat × α) → List (Nat × α)
  | [] => [(k, v)]
  | (k₁, v₁) :: rest =>
    if k = k₁ then (k, v) :: rest else (k₁, v₁) :: dinsert k v rest

/-- Python dict lookup on the association list representation. -/
def assocFind {α : Type} (k : Nat) : List (Nat × α) → Option α
  | [] => none
  | (k₁, v₁) :: rest => if k = k₁ then some v₁ else assocFind k rest

/-- The last record of the list whose `id` equals `k`, in list order. -/
def lastRecordWith (rs : List RawRecord) (k : Nat) : Option RawRecord :=
  match rs with
  | [] => none
  | r :: rest =>
    match lastRecordWith rest k with
    | some x => some x
    | none => if r.id = k then some r else none

/-- The `is_movie` flag computed by `query`: no (truthy) season and episode. -/
def query_is_movie (season episode : Option Nat) : Bool :=
  !(truthyNat season && truthyNat episode)

/-- The identifier `query` ends up using: the caller-supplied one when
truthy, otherwise the resolver result (`imdb_id or self._search_imdb_id(...)`). -/
def query_used_imdb (api : TmdbApi) (title : String)
    (season episode year : Option Nat) (imdb_arg : Option String) : Option String :=
  pyOrStr imdb_arg (_search_imdb_id api title year (query_is_movie season episode)).1

/-- The page link `query` constructs for the candidates. -/
def query_page_link (season episode : Option Nat) (imdb : String) : String :=
  "https://wizdom.xyz/#/" ++
    (if query_is_movie season episode then "movies" else "series") ++ "/" ++ imdb

/-- Construction of one `WizdomSubtitle` inside the `query` loop: language
fixed to Hebrew, hearing_impaired false, series and title both set to the
query title, season, episode and imdb id passed through; only `id` and
`versioname` are read from the catalog record. -/
def mkSubtitle (page_link title : String) (season episode : Option Nat)
    (imdb : String) (r : RawRecord) : WizdomSubtitle :=
  { language := "he", hearing_impaired := false, page_link := page_link,
    series := title, season := season, episode := episode, title := title,
    imdb_id := imdb, subtitle_id := r.id, downloaded := 0, release := r.versioname }

/-- Embedding of `WizdomProvider.query`: resolve the identifier, return the
empty collection when it is falsy, otherwise fetch the catalog records, build
one subtitle per record into an identifier-keyed dict, and return the dict
values. The `filename` parameter is accepted and ignored, as in the source. -/
def query (api : TmdbApi) (catalog : CatalogFn) (title : String)
    (season episode year : Option Nat) (filename : Option String)
    (imdb_arg : Option String) : List WizdomSubtitle :=
  let imdb := query_used_imdb api title season episode year imdb_arg
  if truthyStr imdb then
    let imdbS := imdb.getD ""
    let page_link := query_page_link season episode imdbS
    let results := (_get_subtitles_for_episode catalog imdbS season episode).1
    (results.foldl
      (fun d r => dinsert r.id (mkSubtitle page_link title season episode imdbS r) d)
      []).map Prod.snd
  else []

/-- Embedding of `WizdomProvider.list_subtitles`: pick the query arguments
from the video variant and keep only candidates whose language is in the
requested set. -/
def list_subtitles (api : TmdbApi) (catalog : CatalogFn) (video : Video)
    (languages : List String) : List WizdomSubtitle :=
  match video with
  | .episode e =>
    (query api catalog e.series (some e.season) (some e.episode) e.year e.name
      e.series_imdb_id).filter (fun s => languages.contains s.language)
  | .movie m =>
    (query api catalog m.title none none m.year m.name m.imdb_id).filter
      (fun s => languages.contains s.language)

/-- Index of the last occurrence of character `c` in the list, starting the
count at `i` (helper for the splitext embedding). -/
def lastIndexFrom (c : Char) : List Char → Nat → Option Nat
  | [], _ => none
  | x :: xs, i =>
    match lastIndexFrom c xs (i + 1) with
    | some j => some j
    | none => if x = c then some i else none

/-- Embedding of the extension component of `os.path.splitext` (posix rules):
the suffix from the last dot onwards, provided that dot lies after the last
path separator and the basename does not consist solely of leading dots up to
it. -/
def splitext_ext (p : String) : String :=
  let chars := p.toList
  let sepIndex : Int :=
    match lastIndexFrom (Char.ofNat 47) chars 0 with
    | some i => (i : Int)
    | none => -1
  let dotIndex : Int :=
    match lastIndexFrom (Char.ofNat 46) chars 0 with
    | some i => (i : Int)
    | none => -1
  if sepIndex < dotIndex then
    let stem := (chars.drop (sepIndex + 1).toNat).take (dotIndex - sepIndex - 1).toNat
    if stem.all (fun c => c = Char.ofNat 46) then ""
    else String.mk (chars.drop dotIndex.toNat)
  else ""

/-- The filter wizdom.py applies to the archive name list:
the splitext extension must be .srt or .sub. -/
def qualifying (n : String) : Bool :=
  splitext_ext n == ".srt" || splitext_ext n == ".sub"

/-- One entry of the downloaded zip archive: its name and its bytes. -/
structure ZipEntry where
  name : String
  bytes : List Nat
deriving DecidableEq, Repr

/-- Embedding of `ZipFile.read(name)`: the bytes of the entry registered
under that name (the name-to-info map keeps the last entry for a duplicated
name). -/
def zipRead (entries : List ZipEntry) (n : String) : Option (List Nat) :=
  (entries.reverse.find? (fun e => e.name == n)).map ZipEntry.bytes

/-- Modelled from the spec: `fix_line_ending` from the subtitle framework
(not part of this repository) normalizes line endings to a single consistent
convention by replacing each CRLF pair with a lone LF, left to right. -/
def fix_line_ending : List Nat → List Nat
  | 13 :: 10 :: rest => 10 :: fix_line_ending rest
  | b :: rest => b :: fix_line_ending rest
  | [] => []

/-- Outcome of the archive-handling part of `download_subtitle`: success with
content, the explicit ProviderError for an ambiguous archive, or the
unguarded out-of-range failure of `namelist[0]` on an empty filtered list. -/
inductive DownloadOutcome where
  | ok (content : List Nat)
  | providerError (msg : String)
  | indexError
deriving DecidableEq, Repr

/-- Embedding of the body of `WizdomProvider.download_subtitle` after a
successful HTTP download, acting on the opened archive: filter the name list
to subtitle extensions, raise the ProviderError when more than one name
remains, read the first name otherwise (an out-of-range access when none
remains). -/
def download_subtitle (entries : List ZipEntry) : DownloadOutcome :=
  let namelist := (entries.map ZipEntry.name).filter qualifying
  if namelist.length > 1 then .providerError "More than one file to unzip"
  else
    match namelist with
    | [] => .indexError
    | n :: _ =>
      match zipRead entries n with
      | some c => .ok (fix_line_ending c)
      | none => .indexError

/-- The effect of `download_subtitle` on the subtitle object: the `content`
field is assigned only on the success path and left unchanged when the
operation raises. -/
def run_download (content : Option (List Nat)) (entries : List ZipEntry) :
    Option (List Nat) × DownloadOutcome :=
  match download_subtitle entries with
  | .ok c => (some c, .ok c)
  | r => (content, r)

/-! Helper lemmas. -/

lemma mem_ite_singleton (a b : String) (c : Prop) [Decidable c] :
    (a ∈ (if c then ({b} : Finset String) else ∅)) ↔ (c ∧ a = b) := by
  split <;> simp_all

lemma zipRead_unique (entries : List ZipEntry) (e : ZipEntry)
    (h : entries.filter (fun x => qualifying x.name) = [e]) :
    zipRead entries e.name = some e.bytes := by
  have he : e ∈ entries ∧ qualifying e.name = true := by
    have hm : e ∈ entries.filter (fun x => qualifying x.name) := by
      rw [h]; exact List.mem_singleton_self e
    exact List.mem_filter.1 hm
  have hsome : (entries.reverse.find? (fun x => x.name == e.name)).isSome = true := by
    rw [List.find?_isSome]
    exact ⟨e, List.mem_reverse.2 he.1, by simp⟩
  obtain ⟨m, hm⟩ := Option.isSome_iff_exists.1 hsome
  have hmn : m.name = e.name := by simpa using List.find?_some hm
  have hmem : m ∈ entries := List.mem_reverse.1 (List.mem_of_find?_eq_some hm)
  have hmf : m ∈ entries.filter (fun x => qualifying x.name) :=
    List.mem_filter.2 ⟨hmem, by rw [hmn]; exact he.2⟩
  rw [h] at hmf
  have hme : m = e := by simpa using hmf
  simp [zipRead, hm, hme]

lemma namelist_eq (entries : List ZipEntry) :
    (entries.map ZipEntry.name).filter qualifying
      = (entries.filter (fun x => qualifying x.name)).map ZipEntry.name := by
  rw [List.filter_map]
  rfl

lemma download_subtitle_eq (entries : List ZipEntry) :
    download_subtitle entries =
      match entries.filter (fun x => qualifying x.name) with
      | [] => .indexError
      | [e] => .ok (fix_line_ending e.bytes)
      | _ :: _ :: _ => .providerError "More than one file to unzip" := by
  unfold download_subtitle
  rw [namelist_eq]
  cases hfe : entries.filter (fun x => qualifying x.name) with
  | nil => simp
  | cons a rest =>
    cases rest with
    | nil =>
      have hr := zipRead_unique entries a hfe
      simp [hr]
    | cons b rest' => simp

/-! Claim C1. The claim as frozen omits the Python truthiness guards of
get_matches (`if video.season and ...` etc.): a video whose season is 0 and a
candidate whose season is also 0 satisfy numeric equality, yet the `season`
tag is not added because 0 is falsy. The counterexample exhibits this; the
amended theorem states the exact condition for each of the four tags. -/

/-- Concrete candidate for the C1 counterexample: its season is 0. -/
def seasonZeroSub : WizdomSubtitle :=
  { language := "he", hearing_impaired := false, page_link := "",
    series := "Example Show", season := some 0, episode := some 5,
    title := "Example Show", imdb_id := "tt1", subtitle_id := 1,
    downloaded := 0, release := "x" }

/-- Concrete episode video for the C1 counterexample: season 0 (a specials
season), numerically equal to the candidate season. -/
def seasonZeroVid : EpisodeVideo :=
  { series := "Example Show", season := 0, episode := 5,
    series_imdb_id := some "tt1", title := none, year := none, name := none,
    imdb_id := none }

/-- C1 counterexample: with a guesser contributing nothing, the candidate
season numerically equals the video season (both 0), yet `season` is not in
the result of get_matches, refuting the claimed "exactly when the seasons are
numerically equal". -/
theorem get_matches_season_zero_cex :
    seasonZeroSub.season = some seasonZeroVid.season ∧
      "season" ∉ get_matches (fun _ _ _ => ∅) seasonZeroSub
        (Video.episode seasonZeroVid) := by
  decide

/-- C1 (amended): for every episode video and candidate, get_matches contains
`series` exactly when the video series is non-empty and the sanitized series
agree or the guesser contributes the tag; `season` (resp. `episode`) exactly
when the video season (resp. episode) is non-zero and numerically equal to
the candidate one or the guesser contributes the tag; and `series_imdb_id`
exactly when the video series imdb id is truthy and equal to the stored
candidate imdb id or the guesser contributes the tag. -/
theorem get_matches_episode_tag_iff (guess : Video → String → String → Finset String)
    (s : WizdomSubtitle) (e : EpisodeVideo) :
    ("series" ∈ get_matches guess s (Video.episode e) ↔
      ((e.series ≠ "" ∧ sanitize s.series = sanitize e.series) ∨
        "series" ∈ guess (Video.episode e) "episode" s.release)) ∧
    ("season" ∈ get_matches guess s (Video.episode e) ↔
      ((e.season ≠ 0 ∧ s.season = some e.season) ∨
        "season" ∈ guess (Video.episode e) "episode" s.release)) ∧
    ("episode" ∈ get_matches guess s (Video.episode e) ↔
      ((e.episode ≠ 0 ∧ s.episode = some e.episode) ∨
        "episode" ∈ guess (Video.episode e) "episode" s.release)) ∧
    ("series_imdb_id" ∈ get_matches guess s (Video.episode e) ↔
      ((truthyStr e.series_imdb_id = true ∧ some s.imdb_id = e.series_imdb_id) ∨
        "series_imdb_id" ∈ guess (Video.episode e) "episode" s.release)) := by
  simp only [get_matches, Video.titleField, Finset.mem_union,
    Bool.and_eq_true, bne_iff_ne, ne_eq, beq_iff_eq]
  refine ⟨?_, ?_, ?_, ?_⟩ <;>
    · cases e.title with
      | none => simp [mem_ite_singleton]
      | some t => simp [mem_ite_singleton]

/-- C2: an archive with more than one qualifying entry makes
download_subtitle raise the distinct ambiguous-archive ProviderError, and the
content field of the subtitle is left unchanged. -/
theorem download_subtitle_ambiguous (content : Option (List Nat))
    (entries : List ZipEntry)
    (h : 1 < (entries.filter (fun x => qualifying x.name)).length) :
    download_subtitle entries = .providerError "More than one file to unzip" ∧
      run_download content entries =
        (content, .providerError "More than one file to unzip") := by
  have hd : download_subtitle entries = .providerError "More than one file to unzip" := by
    rcases hl : entries.filter (fun x => qualifying x.name) with _ | ⟨a, _ | ⟨b, r⟩⟩
    · rw [hl] at h; simp at h
    · rw [hl] at h; simp at h
    · rw [download_subtitle_eq, hl]
  exact ⟨hd, by simp [run_download, hd]⟩

/-- C2 witness: a concrete archive with two qualifying entries. -/
theorem download_subtitle_ambiguous_witness :
    download_subtitle [⟨"a.srt", [65]⟩, ⟨"b.sub", [66, 67]⟩] =
        .providerError "More than one file to unzip" ∧
      run_download (some [1]) [⟨"a.srt", [65]⟩, ⟨"b.sub", [66, 67]⟩] =
        (some [1], .providerError "More than one file to unzip") :=
  download_subtitle_ambiguous (some [1]) [⟨"a.srt", [65]⟩, ⟨"b.sub", [66, 67]⟩]
    (by decide)

/-- C3: an archive with exactly one qualifying entry yields the bytes of
that entry with line endings normalized, assigned to the content field. -/
theorem download_subtitle_single (content : Option (List Nat))
    (entries : List ZipEntry) (e : ZipEntry)
    (h : entries.filter (fun x => qualifying x.name) = [e]) :
    run_download content entries =
      (some (fix_line_ending e.bytes), .ok (fix_line_ending e.bytes)) := by
  have hd : download_subtitle entries = .ok (fix_line_ending e.bytes) := by
    rw [download_subtitle_eq, h]
  simp [run_download, hd]

/-- C3 witness: a concrete archive whose single qualifying entry contains a
CRLF that gets normalized. -/
theorem download_subtitle_single_witness :
    run_download none [⟨"readme.txt", [1]⟩, ⟨"sub.srt", [72, 13, 10]⟩] =
      (some (fix_line_ending [72, 13, 10]), .ok (fix_line_ending [72, 13, 10])) :=
  download_subtitle_single none [⟨"readme.txt", [1]⟩, ⟨"sub.srt", [72, 13, 10]⟩]
    ⟨"sub.srt", [72, 13, 10]⟩ (by decide)

/-- C8: with zero qualifying entries download_subtitle ends in the unguarded
out-of-range failure (not the explicit ProviderError) and the content field
is unchanged; with at least one qualifying entry that failure is
unreachable. -/
theorem download_subtitle_zero_qualifying (content : Option (List Nat))
    (entries : List ZipEntry) :
    (entries.filter (fun x => qualifying x.name) = [] →
      download_subtitle entries = .indexError ∧
        run_download content entries = (content, .indexError)) ∧
    (entries.filter (fun x => qualifying x.name) ≠ [] →
      download_subtitle entries ≠ .indexError) := by
  constructor
  · intro h
    have hd : download_subtitle entries = .indexError := by
      rw [download_subtitle_eq, h]
    exact ⟨hd, by simp [run_download, hd]⟩
  · intro h
    rcases hl : entries.filter (fun x => qualifying x.name) with _ | ⟨a, _ | ⟨b, r⟩⟩
    · exact absurd hl h
    · rw [download_subtitle_eq, hl]; simp
    · rw [download_subtitle_eq, hl]; simp

/-- C8 witness: a concrete archive with no qualifying entry fails with the
out-of-range outcome, and one with a qualifying entry does not. -/
theorem download_subtitle_zero_qualifying_witness :
    (download_subtitle [⟨"readme.txt", [1]⟩] = .indexError ∧
      run_download none [⟨"readme.txt", [1]⟩] = (none, .indexError)) ∧
    download_subtitle [⟨"a.srt", [65]⟩] ≠ .indexError :=
  ⟨(download_subtitle_zero_qualifying none [⟨"readme.txt", [1]⟩]).1 (by decide),
    (download_subtitle_zero_qualifying none [⟨"a.srt", [65]⟩]).2 (by decide)⟩

/-- C5: the by-episode catalog search degrades every failure (request
exception, non-success status raised by raise_for_status, JSON decode
failure) to an empty result list with a warning, and returns the parsed
array as-is on success. -/
theorem get_subtitles_for_episode_failure (catalog : CatalogFn) (imdb_id : String)
    (season episode : Option Nat) :
    (catalog imdb_id season episode = none →
      _get_subtitles_for_episode catalog imdb_id season episode = ([], true)) ∧
    (∀ resp, catalog imdb_id season episode = some resp → resp.status_ok = false →
      _get_subtitles_for_episode catalog imdb_id season episode = ([], true)) ∧
    (∀ resp, catalog imdb_id season episode = some resp → resp.body = none →
      _get_subtitles_for_episode catalog imdb_id season episode = ([], true)) ∧
    (∀ resp rs, catalog imdb_id season episode = some resp →
      resp.status_ok = true → resp.body = some rs →
      _get_subtitles_for_episode catalog imdb_id season episode = (rs, false)) := by
  refine ⟨?_, ?_, ?_, ?_⟩
  · intro h; simp [_get_subtitles_for_episode, h]
  · intro resp h hs; simp [_get_subtitles_for_episode, h, hs]
  · intro resp h hb
    rcases hst : resp.status_ok <;> simp [_get_subtitles_for_episode, h, hb, hst]
  · intro resp rs h hs hb; simp [_get_subtitles_for_episode, h, hs, hb]

/-- A catalog whose request always raises. -/
def catalogRaises : CatalogFn := fun _ _ _ => none

/-- A catalog answering with a non-success HTTP status. -/
def catalogBadStatus : CatalogFn := fun _ _ _ =>
  some { status_ok := false, body := some [] }

/-- A catalog answering success with a body that fails JSON decoding. -/
def catalogBadJson : CatalogFn := fun _ _ _ =>
  some { status_ok := true, body := none }

/-- A catalog answering success with one record. -/
def catalogOne : CatalogFn := fun _ _ _ =>
  some { status_ok := true, body := some [{ id := 9, versioname := "Example.Show.S02E05.HDTV" }] }

/-- C5 witness: concrete catalogs exercising all four branches. -/
theorem get_subtitles_for_episode_failure_witness :
    _get_subtitles_for_episode catalogRaises "tt1" (some 2) (some 5) = ([], true) ∧
    _get_subtitles_for_episode catalogBadStatus "tt1" (some 2) (some 5) = ([], true) ∧
    _get_subtitles_for_episode catalogBadJson "tt1" (some 2) (some 5) = ([], true) ∧
    _get_subtitles_for_episode catalogOne "tt1" (some 2) (some 5) =
      ([{ id := 9, versioname := "Example.Show.S02E05.HDTV" }], false) :=
  ⟨(get_subtitles_for_episode_failure catalogRaises "tt1" (some 2) (some 5)).1 rfl,
    (get_subtitles_for_episode_failure catalogBadStatus "tt1" (some 2) (some 5)).2.1
      _ rfl rfl,
    (get_subtitles_for_episode_failure catalogBadJson "tt1" (some 2) (some 5)).2.2.1
      _ rfl rfl,
    (get_subtitles_for_episode_failure catalogOne "tt1" (some 2) (some 5)).2.2.2
      _ _ rfl rfl rfl⟩

/-- C6: when the metadata search returns no results (absent or empty array),
the resolver returns none and issues no detail request; and whenever the
detail imdb field is absent or empty the resolver returns none. -/
theorem search_imdb_id_no_results (api : TmdbApi) (title : String)
    (year : Option Nat) (is_movie : Bool) :
    ((api.search (tmdb_category is_movie) (removeApostrophes title) (tmdb_year year) = none ∨
      api.search (tmdb_category is_movie) (removeApostrophes title) (tmdb_year year) = some []) →
      _search_imdb_id api title year is_movie = (none, false)) ∧
    ((∀ tid, api.detail_imdb (tmdb_category is_movie) tid = none ∨
        api.detail_imdb (tmdb_category is_movie) tid = some "") →
      (_search_imdb_id api title year is_movie).1 = none) := by
  constructor
  · intro h
    rcases h with h | h <;> simp [_search_imdb_id, h]
  · intro h
    rcases hs : api.search (tmdb_category is_movie) (removeApostrophes title) (tmdb_year year)
      with _ | (_ | ⟨first, rest⟩)
    · simp [_search_imdb_id, hs]
    · simp [_search_imdb_id, hs]
    · rcases hid : first.id with _ | tid
      · simp [_search_imdb_id, hs, hid]
      · rcases h tid with hd | hd <;>
          · simp only [_search_imdb_id, hs, hid, hd]
            split <;> simp [hd]

/-- A metadata API whose search yields an empty results array and whose
detail record carries no imdb id. -/
def apiEmpty : TmdbApi :=
  { search := fun _ _ _ => some [], detail_imdb := fun _ _ => none }

/-- A metadata API whose search yields one result but whose detail record
carries an empty imdb id. -/
def apiEmptyImdb : TmdbApi :=
  { search := fun _ _ _ => some [{ id := some 5 }],
    detail_imdb := fun _ _ => some "" }

/-- C6 witness: a concrete empty search and a concrete empty detail field. -/
theorem search_imdb_id_no_results_witness :
    _search_imdb_id apiEmpty "Example Show" (some 2020) false = (none, false) ∧
      (_search_imdb_id apiEmptyImdb "Example Show" none true).1 = none :=
  ⟨(search_imdb_id_no_results apiEmpty "Example Show" (some 2020) false).1 (Or.inr rfl),
    (search_imdb_id_no_results apiEmptyImdb "Example Show" none true).2
      (fun _ => Or.inr rfl)⟩

/-! Lemmas about the dict embedding and the query fold. -/

lemma assocFind_dinsert {α : Type} (k j : Nat) (v : α) (d : List (Nat × α)) :
    assocFind k (dinsert j v d) = if k = j then some v else assocFind k d := by
  induction d with
  | nil => simp [dinsert, assocFind]
  | cons p rest ih =>
    obtain ⟨k₁, v₁⟩ := p
    simp only [dinsert]
    split
    · next hj =>
      subst hj
      simp only [assocFind]
      by_cases hk : k = j <;> simp [hk]
    · next hj =>
      simp only [assocFind, ih]
      by_cases hk : k = k₁
      · subst hk
        have hne : ¬ k = j := fun h => hj h.symm
        simp [hne]
      · simp [hk]

lemma mem_dinsert {α : Type} (p : Nat × α) (j : Nat) (v : α) (d : List (Nat × α)) :
    p ∈ dinsert j v d → p = (j, v) ∨ p ∈ d := by
  induction d with
  | nil => simp [dinsert]
  | cons q rest ih =>
    obtain ⟨k₁, v₁⟩ := q
    simp only [dinsert]
    split
    · intro h
      rcases List.mem_cons.1 h with h | h
      · exact Or.inl h
      · exact Or.inr (List.mem_cons_of_mem _ h)
    · intro h
      rcases List.mem_cons.1 h with h | h
      · exact Or.inr (by rw [h]; exact List.mem_cons_self _ _)
      · rcases ih h with h | h
        · exact Or.inl h
        · exact Or.inr (List.mem_cons_of_mem _ h)

lemma keys_dinsert {α : Type} (j : Nat) (v : α) (d : List (Nat × α)) :
    (dinsert j v d).map Prod.fst =
      if j ∈ d.map Prod.fst then d.map Prod.fst else d.map Prod.fst ++ [j] := by
  induction d with
  | nil => simp [dinsert]
  | cons q rest ih =>
    obtain ⟨k₁, v₁⟩ := q
    by_cases hj : j = k₁
    · subst hj
      simp [dinsert]
    · simp only [dinsert, if_neg hj, List.map_cons, ih]
      by_cases hm : j ∈ rest.map Prod.fst
      · simp [hm, hj]
      · simp [hm, hj]

lemma nodup_keys_dinsert {α : Type} (j : Nat) (v : α) (d : List (Nat × α))
    (h : (d.map Prod.fst).Nodup) : ((dinsert j v d).map Prod.fst).Nodup := by
  rw [keys_dinsert]
  split
  · exact h
  · next hm => simp [List.nodup_append, h, hm]

lemma mem_fold {α : Type} (f : RawRecord → α) (rs : List RawRecord) :
    ∀ (d : List (Nat × α)) (p : Nat × α),
      p ∈ rs.foldl (fun d r => dinsert r.id (f r) d) d →
      p ∈ d ∨ ∃ r ∈ rs, p = (r.id, f r) := by
  induction rs with
  | nil => intro d p h; exact Or.inl h
  | cons r rest ih =>
    intro d p h
    rcases ih _ p h with h' | ⟨r', hr', hp⟩
    · rcases mem_dinsert p r.id (f r) d h' with h'' | h''
      · exact Or.inr ⟨r, List.mem_cons_self _ _, h''⟩
      · exact Or.inl h''
    · exact Or.inr ⟨r', List.mem_cons_of_mem _ hr', hp⟩

lemma assocFind_fold {α : Type} (f : RawRecord → α) (rs : List RawRecord) :
    ∀ (d : List (Nat × α)) (k : Nat),
      assocFind k (rs.foldl (fun d r => dinsert r.id (f r) d) d) =
        match lastRecordWith rs k with
        | some r => some (f r)
        | none => assocFind k d := by
  induction rs with
  | nil => intro d k; simp [lastRecordWith]
  | cons r rest ih =>
    intro d k
    simp only [List.foldl_cons, lastRecordWith]
    rw [ih]
    cases h : lastRecordWith rest k with
    | some x => rfl
    | none =>
      simp only [assocFind_dinsert]
      by_cases hk : k = r.id
      · simp [hk]
      · rw [if_neg hk, if_neg (fun h : r.id = k => hk h.symm)]

lemma nodup_keys_fold {α : Type} (f : RawRecord → α) (rs : List RawRecord) :
    ∀ (d : List (Nat × α)), (d.map Prod.fst).Nodup →
      ((rs.foldl (fun d r => dinsert r.id (f r) d) d).map Prod.fst).Nodup := by
  induction rs with
  | nil => intro d h; exact h
  | cons r rest ih => intro d h; exact ih _ (nodup_keys_dinsert _ _ _ h)

lemma assocFind_of_mem_nodup {α : Type} {d : List (Nat × α)} {k : Nat} {v : α}
    (hnd : (d.map Prod.fst).Nodup) (h : (k, v) ∈ d) : assocFind k d = some v := by
  induction d with
  | nil => cases h
  | cons p rest ih =>
    obtain ⟨k₁, v₁⟩ := p
    simp only [List.map_cons, List.nodup_cons] at hnd
    rcases List.mem_cons.1 h with h | h
    · cases h
      simp [assocFind]
    · have hk : k ≠ k₁ := by
        intro hkk
        exact hnd.1 (hkk ▸ (List.mem_map.2 ⟨(k, v), h, rfl⟩))
      simp [assocFind, hk, ih hnd.2 h]

lemma query_eq_of_truthy {api : TmdbApi} {catalog : CatalogFn} {title : String}
    {season episode year : Option Nat} {filename imdb_arg : Option String}
    (ht : truthyStr (query_used_imdb api title season episode year imdb_arg) = true) :
    query api catalog title season episode year filename imdb_arg =
      ((_get_subtitles_for_episode catalog
          ((query_used_imdb api title season episode year imdb_arg).getD "")
          season episode).1.foldl
        (fun d r => dinsert r.id (mkSubtitle
          (query_page_link season episode
            ((query_used_imdb api title season episode year imdb_arg).getD ""))
          title season episode
          ((query_used_imdb api title season episode year imdb_arg).getD "") r) d)
        []).map Prod.snd := by
  simp only [query]
  rw [if_pos ht]

lemma query_eq_of_falsy {api : TmdbApi} {catalog : CatalogFn} {title : String}
    {season episode year : Option Nat} {filename imdb_arg : Option String}
    (ht : ¬ truthyStr (query_used_imdb api title season episode year imdb_arg) = true) :
    query api catalog title season episode year filename imdb_arg = [] := by
  simp only [query]
  rw [if_neg ht]

lemma query_mem {api : TmdbApi} {catalog : CatalogFn} {title : String}
    {season episode year : Option Nat} {filename imdb_arg : Option String}
    {s : WizdomSubtitle}
    (h : s ∈ query api catalog title season episode year filename imdb_arg) :
    ∃ r ∈ (_get_subtitles_for_episode catalog
        ((query_used_imdb api title season episode year imdb_arg).getD "")
        season episode).1,
      s = mkSubtitle
        (query_page_link season episode
          ((query_used_imdb api title season episode year imdb_arg).getD ""))
        title season episode
        ((query_used_imdb api title season episode year imdb_arg).getD "") r := by
  by_cases ht : truthyStr (query_used_imdb api title season episode year imdb_arg) = true
  · rw [query_eq_of_truthy ht] at h
    obtain ⟨p, hp, hps⟩ := List.mem_map.1 h
    rcases mem_fold _ _ _ p hp with h0 | ⟨r, hr, rfl⟩
    · cases h0
    · exact ⟨r, hr, hps.symm⟩
  · rw [query_eq_of_falsy ht] at h
    cases h

/-- C4: query returns each subtitle id at most once, and the candidate kept
for an id is the one built from the last catalog record bearing that id in
response order. -/
theorem query_unique_last_wins (api : TmdbApi) (catalog : CatalogFn) (title : String)
    (season episode year : Option Nat) (filename imdb_arg : Option String) :
    ((query api catalog title season episode year filename imdb_arg).map
        (fun s => s.subtitle_id)).Nodup ∧
    ∀ s ∈ query api catalog title season episode year filename imdb_arg,
      ∃ r, lastRecordWith
          (_get_subtitles_for_episode catalog
            ((query_used_imdb api title season episode year imdb_arg).getD "")
            season episode).1 s.subtitle_id = some r ∧
        s = mkSubtitle
          (query_page_link season episode
            ((query_used_imdb api title season episode year imdb_arg).getD ""))
          title season episode
          ((query_used_imdb api title season episode year imdb_arg).getD "") r := by
  by_cases ht : truthyStr (query_used_imdb api title season episode year imdb_arg) = true
  case neg =>
    rw [query_eq_of_falsy ht]
    exact ⟨List.nodup_nil, fun s hs => absurd hs (List.not_mem_nil s)⟩
  case pos =>
    rw [@query_eq_of_truthy api catalog title season episode year filename imdb_arg ht]
    set used := (query_used_imdb api title season episode year imdb_arg).getD "" with hused
    set F := fun r => mkSubtitle (query_page_link season episode used) title season episode used r
      with hF
    set results := (_get_subtitles_for_episode catalog used season episode).1 with hres
    set fold := results.foldl (fun d r => dinsert r.id (F r) d) [] with hfold
    have hinv : ∀ p ∈ fold, p.2.subtitle_id = p.1 := by
      intro p hp
      rcases mem_fold F results [] p hp with h0 | ⟨r, hr, rfl⟩
      · cases h0
      · rfl
    have hnd : (fold.map Prod.fst).Nodup := nodup_keys_fold F results [] (by simp)
    constructor
    · rw [List.map_map]
      have hmc : fold.map ((fun s => s.subtitle_id) ∘ Prod.snd) = fold.map Prod.fst :=
        List.map_congr_left (fun p hp => hinv p hp)
      rw [hmc]
      exact hnd
    · intro s hs
      obtain ⟨p, hp, hps⟩ := List.mem_map.1 hs
      have hfind : assocFind p.1 fold = some p.2 := assocFind_of_mem_nodup hnd hp
      rw [hfold, assocFind_fold] at hfind
      rcases hlr : lastRecordWith results p.1 with _ | r
      · rw [hlr] at hfind
        simp [assocFind] at hfind
      · rw [hlr] at hfind
        have hFr : F r = p.2 := by
          simpa using hfind
        have hsub : s.subtitle_id = p.1 := by
          rw [← hps]
          exact hinv p hp
        refine ⟨r, ?_, ?_⟩
        · rw [hsub]
          exact hlr
        · rw [← hps, ← hFr]

/-- A catalog answering with a duplicated record id (records 9, 9, 7). -/
def catalogDup : CatalogFn := fun _ _ _ =>
  some { status_ok := true,
         body := some [{ id := 9, versioname := "first" },
                       { id := 9, versioname := "second" },
                       { id := 7, versioname := "x" }] }

/-- The candidate kept for the duplicated id 9: built from the later record. -/
def keptSub : WizdomSubtitle :=
  mkSubtitle (query_page_link (some 2) (some 5) "tt1234567") "Example Show"
    (some 2) (some 5) "tt1234567" { id := 9, versioname := "second" }

/-- C4 witness: a concrete response with a duplicated id; the kept candidate
carries the release of the later record. -/
theorem query_unique_last_wins_witness :
    ((query apiEmpty catalogDup "Example Show" (some 2) (some 5) none none
        (some "tt1234567")).map (fun s => s.subtitle_id)).Nodup ∧
    ∃ r, lastRecordWith
        (_get_subtitles_for_episode catalogDup
          ((query_used_imdb apiEmpty "Example Show" (some 2) (some 5) none
            (some "tt1234567")).getD "")
          (some 2) (some 5)).1 keptSub.subtitle_id = some r ∧
      keptSub = mkSubtitle
        (query_page_link (some 2) (some 5)
          ((query_used_imdb apiEmpty "Example Show" (some 2) (some 5) none
            (some "tt1234567")).getD ""))
        "Example Show" (some 2) (some 5)
        ((query_used_imdb apiEmpty "Example Show" (some 2) (some 5) none
          (some "tt1234567")).getD "") r :=
  ⟨(query_unique_last_wins apiEmpty catalogDup "Example Show" (some 2) (some 5)
      none none (some "tt1234567")).1,
    (query_unique_last_wins apiEmpty catalogDup "Example Show" (some 2) (some 5)
      none none (some "tt1234567")).2 keptSub (by decide)⟩

/-- C7: every candidate built by query carries the query title as both series
and title, the query season and episode, the identifier used for the catalog
search, and takes only id and versioname from the catalog record. -/
theorem query_candidate_fields (api : TmdbApi) (catalog : CatalogFn) (title : String)
    (season episode year : Option Nat) (filename imdb_arg : Option String) :
    ∀ s ∈ query api catalog title season episode year filename imdb_arg,
      s.series = title ∧ s.title = title ∧ s.season = season ∧ s.episode = episode ∧
      s.imdb_id = (query_used_imdb api title season episode year imdb_arg).getD "" ∧
      ∃ r ∈ (_get_subtitles_for_episode catalog
          ((query_used_imdb api title season episode year imdb_arg).getD "")
          season episode).1,
        s.subtitle_id = r.id ∧ s.release = r.versioname := by
  intro s hs
  obtain ⟨r, hr, rfl⟩ := query_mem hs
  exact ⟨rfl, rfl, rfl, rfl, rfl, r, hr, rfl, rfl⟩

/-- The single candidate produced by `catalogOne` for the standard example. -/
def exampleSub : WizdomSubtitle :=
  mkSubtitle (query_page_link (some 2) (some 5) "tt1234567") "Example Show"
    (some 2) (some 5) "tt1234567" { id := 9, versioname := "Example.Show.S02E05.HDTV" }

/-- C7 witness: the concrete candidate of the one-record catalog. -/
theorem query_candidate_fields_witness :
    exampleSub.series = "Example Show" ∧ exampleSub.title = "Example Show" ∧
    exampleSub.season = some 2 ∧ exampleSub.episode = some 5 ∧
    exampleSub.imdb_id = (query_used_imdb apiEmpty "Example Show" (some 2) (some 5)
      none (some "tt1234567")).getD "" ∧
    ∃ r ∈ (_get_subtitles_for_episode catalogOne
        ((query_used_imdb apiEmpty "Example Show" (some 2) (some 5) none
          (some "tt1234567")).getD "")
        (some 2) (some 5)).1,
      exampleSub.subtitle_id = r.id ∧ exampleSub.release = r.versioname :=
  query_candidate_fields apiEmpty catalogOne "Example Show" (some 2) (some 5) none
    none (some "tt1234567") exampleSub (by decide)

/-- C10: every candidate built by query is tagged with the fixed Hebrew
locale and has hearing_impaired false. -/
theorem query_fixed_language (api : TmdbApi) (catalog : CatalogFn) (title : String)
    (season episode year : Option Nat) (filename imdb_arg : Option String) :
    ∀ s ∈ query api catalog title season episode year filename imdb_arg,
      s.language = "he" ∧ s.hearing_impaired = false := by
  intro s hs
  obtain ⟨r, hr, rfl⟩ := query_mem hs
  exact ⟨rfl, rfl⟩

/-- C10 witness: the concrete candidate of the one-record catalog. -/
theorem query_fixed_language_witness :
    exampleSub.language = "he" ∧ exampleSub.hearing_impaired = false :=
  query_fixed_language apiEmpty catalogOne "Example Show" (some 2) (some 5) none
    none (some "tt1234567") exampleSub (by decide)

/-- C9: list_subtitles only returns candidates whose language is in the
requested set, and returns nothing when the fixed Hebrew locale is not
requested. -/
theorem list_subtitles_language_filter (api : TmdbApi) (catalog : CatalogFn)
    (video : Video) (languages : List String) :
    (∀ s ∈ list_subtitles api catalog video languages, s.language ∈ languages) ∧
    ("he" ∉ languages → list_subtitles api catalog video languages = []) := by
  constructor
  · intro s hs
    cases video with
    | episode e =>
      simp only [list_subtitles] at hs
      have hc := (List.mem_filter.1 hs).2
      simpa using hc
    | movie m =>
      simp only [list_subtitles] at hs
      have hc := (List.mem_filter.1 hs).2
      simpa using hc
  · intro hne
    cases video with
    | episode e =>
      simp only [list_subtitles]
      rw [List.filter_eq_nil_iff]
      intro s hs
      obtain ⟨r, hr, rfl⟩ := query_mem hs
      simpa [mkSubtitle] using hne
    | movie m =>
      simp only [list_subtitles]
      rw [List.filter_eq_nil_iff]
      intro s hs
      obtain ⟨r, hr, rfl⟩ := query_mem hs
      simpa [mkSubtitle] using hne

/-- The example episode of the end-to-end scenario. -/
def exampleEpisode : EpisodeVideo :=
  { series := "Example Show", season := 2, episode := 5,
    series_imdb_id := some "tt1234567", title := none, year := none, name := none,
    imdb_id := none }

/-- The example episode video of the end-to-end scenario. -/
def exampleVideo : Video := Video.episode exampleEpisode

/-- C9 witness: the concrete candidate is kept when Hebrew is requested, and
a non-Hebrew request yields the empty list. -/
theorem list_subtitles_language_filter_witness :
    exampleSub.language ∈ ["he"] ∧
      list_subtitles apiEmpty catalogOne exampleVideo ["en"] = [] :=
  ⟨(list_subtitles_language_filter apiEmpty catalogOne exampleVideo ["he"]).1
      exampleSub (by decide),
    (list_subtitles_language_filter apiEmpty catalogOne exampleVideo ["en"]).2
      (by decide)⟩

end Wizdom
